import Mathlib

/-!
Verification of the Amass enumeration engine core (`amass` package).

The definitions below are a shallow embedding of the Go source: request tag
constants, the tag trust partition, the timing templates, configuration
checking, the event entry points of the `Enumeration` object
(`NewNameEvent`, `NewAddressEvent`, `ResolveNameEvent`, `ResolvedNameEvent`),
service selection in `Start`, the `cleanName` scrubber, and the web-archive
crawl loop.  Go channels, goroutines and network calls are modelled by
explicit state passing, event traces, and result parameters.  A few helpers
of the repository live outside the provided sources (the `utils` package and
the DNS service internals); those are modelled from the specification and
are marked as such in their doc comments.
-/

namespace Amass

/-! ### Request tag constants (source part_000, lines 55-66) -/

def ALT : String := "alt"
def ARCHIVE : String := "archive"
def API : String := "api"
def AXFR : String := "axfr"
def BRUTE : String := "brute"
def CERT : String := "cert"
def DNS : String := "dns"
def SCRAPE : String := "scrape"

/-- Embedding of `TrustedTag` (part_000 lines 398-403): returns true when the tag is of
a type that should be trusted even facing DNS wildcards. -/
def TrustedTag (tag : String) : Bool :=
  if tag = DNS || tag = CERT || tag = ARCHIVE || tag = AXFR then
    true
  else
    false

/-! ### Timing templates (source part_000, lines 69-76 and 406-445) -/

/-- Type `EnumerationTiming` represents a speed band for the enumeration. -/
inductive EnumerationTiming
  | Paranoid
  | Sneaky
  | Polite
  | Normal
  | Aggressive
  | Insane
deriving DecidableEq, Repr

open EnumerationTiming

/-- Go `time.Duration` units, in nanoseconds. -/
def timeMicrosecond : Nat := 1000

def timeMillisecond : Nat := 1000 * timeMicrosecond

def nsPerSecond : Nat := 1000 * timeMillisecond

/-- Embedding of `ToMaxFlow` (part_000 lines 406-424): the maximum number of names
Amass should handle at once for a given timing band. -/
def EnumerationTiming.ToMaxFlow : EnumerationTiming → Nat
  | Paranoid => 10
  | Sneaky => 30
  | Polite => 100
  | Normal => 333
  | Aggressive => 1000
  | Insane => 10000

/-- Embedding of `ToReleaseDelay` (part_000 lines 427-445): the minimum delay between
MaxFlow semaphore releases, in nanoseconds. -/
def EnumerationTiming.ToReleaseDelay : EnumerationTiming → Nat
  | Paranoid => 100 * timeMillisecond
  | Sneaky => 33 * timeMillisecond
  | Polite => 10 * timeMillisecond
  | Normal => 3 * timeMillisecond
  | Aggressive => timeMillisecond
  | Insane => 100 * timeMicrosecond

/-! ### Requests and configuration (data model) -/

/-- Structure `AmassRequest`: the unit flowing through the pipeline (name, domain,
address, tag, source). -/
structure AmassRequest where
  Name : String
  Domain : String
  Address : String
  Tag : String
  Source : String
deriving DecidableEq, Repr

/-- Structure `AmassConfig`: the configuration fields used by the embedded code. -/
structure AmassConfig where
  Domains : List String
  Ports : List Nat
  Wordlist : List String
  Blacklist : List String
  Passive : Bool
  Active : Bool
  BruteForcing : Bool
  Recursive : Bool
  Alterations : Bool
  Timing : EnumerationTiming
deriving DecidableEq, Repr

/-- Modelled from the spec: `AmassConfig.Blacklisted` is not among the
provided sources (it lives in the configuration part of the package); per
the spec's blacklist scenario ("blacklist=[...]; source emits a listed name;
no output; permit released") it reports whether the name is in the
configured blacklist. -/
def AmassConfig.Blacklisted (c : AmassConfig) (name : String) : Bool :=
  name ∈ c.Blacklist

/-- Modelled from the spec: `utils.StringFilter` is not among the provided
sources; per §4.2 it is a set-membership filter whose `Duplicate` operation
"returns true and inserts in one atomic step", with no removal.  The filter
is modelled as the list of names inserted so far. -/
abbrev StringFilter := List String

/-- Modelled from the spec: `StringFilter.Duplicate` returns whether the
name was already present together with the filter with the name inserted. -/
def StringFilter.Duplicate (f : StringFilter) (s : String) : Bool × StringFilter :=
  if s ∈ f then (true, f) else (false, s :: f)

/-- Model of `strings.ToLower` restricted to ASCII (the only case folding these
inputs exercise): lowercase every character. -/
def goToLower (s : String) : String :=
  String.mk (s.data.map Char.toLower)

/-- Modelled from the spec: `utils.RemoveAsteriskLabel` is not among the
provided sources; per §4.4 normalization strips the leading wildcard label
`*.` from a name. -/
def RemoveAsteriskLabel (s : String) : String :=
  match s.data with
  | '*' :: '.' :: rest => String.mk rest
  | _ => s

/-- Modelled from the spec: `utils.UniqueAppend` is not among the provided
sources; per the dedup behavior required of the crawler and the wordlist
loader it appends the entry when it is not already present, preserving
order. -/
def uniqueAppend (l : List String) (s : String) : List String :=
  if s ∈ l then l else l ++ [s]

/-- Go's `unicode.IsSpace` restricted to the Latin-1 range (all whitespace
these inputs can carry): space, tab, newline, vertical tab, form feed,
carriage return, next line, and no-break space. -/
def isGoSpace (c : Char) : Bool :=
  c.toNat == 9 || c.toNat == 10 || c.toNat == 11 || c.toNat == 12 || c.toNat == 13 ||
    c.toNat == 32 || c.toNat == 133 || c.toNat == 160

/-- Model of `strings.TrimSpace` on a character list: drop whitespace from both
ends. -/
def trimSpaceList (l : List Char) : List Char :=
  ((l.dropWhile isGoSpace).reverse.dropWhile isGoSpace).reverse

/-- Model of `strings.TrimSpace` on strings. -/
def trimSpace (s : String) : String :=
  String.mk (trimSpaceList s.data)

/-- Split a character list at newline characters (the token stream of
`bufio.Scanner` with the default line splitter; a trailing final empty line
is harmless here because empty words are discarded by the caller). -/
def splitLines : List Char → List (List Char)
  | [] => [[]]
  | c :: rest =>
    match splitLines rest with
    | [] => [[]]
    | line :: more =>
      if c = '\n' then [] :: line :: more else (c :: line) :: more

/-! ### NewNameEvent / NewAddressEvent (source part_000, lines 283-310) -/

/-- The state of the `Enumeration` object touched by `NewNameEvent`: the two
dedup filters and the running count of `MaxFlow.Acquire(1)` calls. -/
structure NameState where
  trustedNameFilter : StringFilter
  otherNameFilter : StringFilter
  maxFlowAcquired : Nat
deriving DecidableEq, Repr

/-- Number of permits acquired by `e.MaxFlow.Acquire(1)` guarded by
`!e.Config.Passive`. -/
def acquireCount (passive : Bool) : Nat :=
  if passive then 0 else 1

/-- The in-place normalization performed by `NewNameEvent` (part_000 lines
288-289): `req.Name = strings.ToLower(utils.RemoveAsteriskLabel(req.Name))`
and `req.Domain = strings.ToLower(req.Domain)`. -/
def normalizeRequest (req : AmassRequest) : AmassRequest :=
  { req with Name := goToLower (RemoveAsteriskLabel req.Name),
             Domain := goToLower req.Domain }

/-- Embedding of `NewNameEvent` (part_000 lines 283-302).  A `none` request models the
Go `nil` pointer.  The result is the updated state together with the request
forwarded to `nameService.SendRequest` (or `none` when the event drops the
request). -/
def NewNameEvent (passive : Bool) (st : NameState) (req : Option AmassRequest) :
    NameState × Option AmassRequest :=
  match req with
  | none => (st, none)
  | some r =>
    if r.Name = "" || r.Domain = "" then (st, none)
    else
      let r' := normalizeRequest r
      if TrustedTag r'.Tag then
        match st.trustedNameFilter.Duplicate r'.Name with
        | (true, _) => (st, none)
        | (false, f) =>
          ({ st with trustedNameFilter := f,
                     maxFlowAcquired := st.maxFlowAcquired + acquireCount passive },
           some r')
      else
        match st.otherNameFilter.Duplicate r'.Name with
        | (true, _) => (st, none)
        | (false, f) =>
          ({ st with otherNameFilter := f,
                     maxFlowAcquired := st.maxFlowAcquired + acquireCount passive },
           some r')

/-- Embedding of `NewAddressEvent` (part_000 lines 305-310): returns the request
forwarded to `addrService.SendRequest`, or `none` when it is dropped. -/
def NewAddressEvent (req : Option AmassRequest) : Option AmassRequest :=
  match req with
  | none => none
  | some r => if r.Address = "" then none else some r

/-- A run of the name pipeline: feed a list of incoming requests through
`NewNameEvent`, collecting every forwarded request in order. -/
def runNames (passive : Bool) : NameState → List (Option AmassRequest) →
    NameState × List AmassRequest
  | st, [] => (st, [])
  | st, r :: rest =>
    let (st', out) := NewNameEvent passive st r
    let (stf, outs) := runNames passive st' rest
    (stf, out.toList ++ outs)

/-- The dedup key of a forwarded request: its (normalized) name together
with its trust partition. -/
def nameKey (r : AmassRequest) : String × Bool :=
  (r.Name, TrustedTag r.Tag)

/-- Membership of a dedup key in the filter selected by its trust bit. -/
def keyMem (st : NameState) (k : String × Bool) : Prop :=
  k.1 ∈ (if k.2 then st.trustedNameFilter else st.otherNameFilter)

/-! ### CheckConfig (source part_000, lines 172-198) -/

/-- Embedding of `getDefaultWordlist` (part_000 lines 468-485).  The page returned by
`utils.RequestWebPage` (a network call) is passed in as `fetched`: `.error`
models a failed request, `.ok page` the fetched body.  The scanner loop
trims each line and unique-appends every non-empty word. -/
def getDefaultWordlist (fetched : Except String String) :
    List String × Option String :=
  match fetched with
  | .error e => ([], some e)
  | .ok page =>
    (((splitLines page.data).map fun line => trimSpace (String.mk line)).foldl
       (fun list word => if word ≠ "" then uniqueAppend list word else list) [],
     none)

/-- The fields of the `Enumeration` object relevant to configuration
checking and startup.  `hasOutput` models `e.Output != nil` and
`hasDataOptsWriter` models `e.DataOptsWriter != nil`; `MaxFlowCapacity` and
`MaxFlowDelay` record the timed-semaphore parameters installed by
`CheckConfig`. -/
structure Enumeration where
  Config : AmassConfig
  hasOutput : Bool
  hasDataOptsWriter : Bool
  MaxFlowCapacity : Nat
  MaxFlowDelay : Nat
deriving DecidableEq, Repr

/-- Embedding of `CheckConfig` (part_000 lines 172-198): sanity checks on the
enumeration configuration.  Returns the error (`none` = success) together
with the updated `Enumeration` (defaulted ports, fetched wordlist,
installed MaxFlow parameters). -/
def CheckConfig (e : Enumeration) (fetched : Except String String) :
    Option String × Enumeration :=
  if e.hasOutput = false then
    (some "The configuration did not have an output channel", e)
  else if e.Config.Passive && e.Config.BruteForcing then
    (some "Brute forcing cannot be performed without DNS resolution", e)
  else if e.Config.Passive && e.Config.Active then
    (some "Active enumeration cannot be performed without DNS resolution", e)
  else if e.Config.Passive && e.hasDataOptsWriter then
    (some "Data operations cannot be saved without DNS resolution", e)
  else
    let cfg1 := if e.Config.Ports = [] then { e.Config with Ports := [443] }
                else e.Config
    let wlErr := if cfg1.Wordlist = [] then getDefaultWordlist fetched
                 else (cfg1.Wordlist, none)
    let cfg2 := { cfg1 with Wordlist := wlErr.1 }
    (wlErr.2,
     { e with Config := cfg2,
              MaxFlowCapacity := cfg2.Timing.ToMaxFlow,
              MaxFlowDelay := cfg2.Timing.ToReleaseDelay })

/-! ### Start (source part_000, lines 201-222) -/

/-- The services owned by an `Enumeration`; data sources are identified by
their index in `e.dataSources`. -/
inductive ServiceId
  | dnsService
  | dataService
  | activeCert
  | nameService
  | addrService
  | altService
  | bruteService
  | dataSource (idx : Nat)
deriving DecidableEq, Repr

/-- The service-selection logic at the top of `Start` (part_000 lines
206-216), reproducing the append order of the source. -/
def selectServices (passive : Bool) (dataSources : List Nat) : List ServiceId :=
  let services : List ServiceId := []
  let services := if !passive then
      services ++ [ServiceId.dnsService, ServiceId.dataService, ServiceId.activeCert]
    else services
  let services := services ++ [ServiceId.nameService, ServiceId.addrService]
  let services := if !passive then
      services ++ [ServiceId.altService, ServiceId.bruteService]
    else services
  services ++ dataSources.map ServiceId.dataSource

/-- The start loop of `Start` (part_000 lines 218-222): start each selected
service in order and return the first error. -/
def startServices (start : ServiceId → Option String) :
    List ServiceId → Option String
  | [] => none
  | s :: rest =>
    match start s with
    | some err => some err
    | none => startServices start rest

/-- Embedding of `Start` up to the quiescence loop (part_000 lines 201-222): run
`CheckConfig`, select the services for this enumeration, and start them,
returning the first error encountered (`none` = startup succeeded). -/
def Start (e : Enumeration) (fetched : Except String String)
    (dataSources : List Nat) (start : ServiceId → Option String) :
    Option String :=
  match CheckConfig e fetched with
  | (some err, _) => some err
  | (none, e') => startServices start (selectServices e'.Config.Passive dataSources)

/-! ### ResolveNameEvent / ResolvedNameEvent (source part_000, lines 329-354) -/

/-- Per-zone wildcard classification (spec §3: classification ∈ {none,
static, dynamic}); mirrors the DNS service's `WildcardTypeNone`,
`WildcardTypeStatic`, `WildcardTypeDynamic` constants. -/
inductive WildcardType
  | None
  | Static
  | Dynamic
deriving DecidableEq, Repr

/-- The DNS-service facts read by the events.  `GetWildcardType` and
`MatchesWildcard` are methods of the DNS service whose implementation is
outside the provided sources; the events only branch on their results, so
they are taken as an oracle.  `Resolves` — modelled from the spec (§4.5
Resolve) — tells whether DNS resolution of the request succeeds. -/
structure DNSOracle where
  GetWildcardType : AmassRequest → WildcardType
  MatchesWildcard : AmassRequest → Bool
  Resolves : AmassRequest → Bool

/-- The terminal dispositions of a candidate request in the resolution
path. -/
inductive Disposition
  | invalidDrop
  | blacklistDrop
  | dynamicWildcardDrop
  | resolutionFailure
  | staticWildcardDrop
  | emitted
deriving DecidableEq, Repr

/-- Outcome of `ResolveNameEvent` itself: dropped with a disposition, or
handed to `dnsService.SendRequest`. -/
inductive ResolveOutcome
  | dropped (d : Disposition)
  | sentToDNS (req : AmassRequest)
deriving DecidableEq, Repr

/-- Number of permits released by `e.MaxFlow.Release(1)` guarded by
`!e.Config.Passive`. -/
def releaseCount (passive : Bool) : Nat :=
  if passive then 0 else 1

/-- Embedding of `ResolveNameEvent` (part_000 lines 330-346).  Returns the outcome
together with the number of MaxFlow permits released by the event.  The
source merges the blacklist and dynamic-wildcard drops into one condition;
the short-circuit order of `||` distinguishes them. -/
def ResolveNameEvent (cfg : AmassConfig) (oracle : DNSOracle)
    (req : Option AmassRequest) : ResolveOutcome × Nat :=
  match req with
  | none => (.dropped .invalidDrop, releaseCount cfg.Passive)
  | some r =>
    if r.Name = "" || r.Domain = "" then
      (.dropped .invalidDrop, releaseCount cfg.Passive)
    else if cfg.Blacklisted r.Name then
      (.dropped .blacklistDrop, releaseCount cfg.Passive)
    else if TrustedTag r.Tag = false ∧ oracle.GetWildcardType r = WildcardType.Dynamic then
      (.dropped .dynamicWildcardDrop, releaseCount cfg.Passive)
    else
      (.sentToDNS r, 0)

/-- Embedding of `ResolvedNameEvent` (part_000 lines 349-354): returns the request
forwarded to `nameService.Resolved`, or `none` when the static-fingerprint
check drops it. -/
def ResolvedNameEvent (oracle : DNSOracle) (req : AmassRequest) :
    Option AmassRequest :=
  if TrustedTag req.Tag = false ∧ oracle.MatchesWildcard req = true then none
  else some req

/-- Modelled from the spec: `DNSService.SendRequest` (the resolution work of
the DNS service) is outside the provided sources.  Per §4.5 it resolves the
request, emits `resolvedNameEvent` on success and drops on error, and
"request disposition always releases the FlowLimiter permit exactly once —
on emit, on drop, or on error".  It runs only in non-passive enumerations
(the DNS service is not started in passive mode). -/
def dnsSendRequest (oracle : DNSOracle) (req : AmassRequest) :
    Disposition × Nat :=
  if oracle.Resolves req then
    match ResolvedNameEvent oracle req with
    | none => (.staticWildcardDrop, 1)
    | some _ => (.emitted, 1)
  else
    (.resolutionFailure, 1)

/-- The full disposition path of a candidate request handed to
`ResolveNameEvent`: the event itself followed, when the request is handed
to the DNS service, by the (spec-modelled) resolution step.  The second
component counts every MaxFlow permit released along the way. -/
def resolutionPipeline (cfg : AmassConfig) (oracle : DNSOracle)
    (req : Option AmassRequest) : Disposition × Nat :=
  match ResolveNameEvent cfg oracle req with
  | (.dropped d, n) => (d, n)
  | (.sentToDNS r, n) =>
    ((dnsSendRequest oracle r).1, n + (dnsSendRequest oracle r).2)

/-! ### cleanName (source part_000, lines 527-537 and line 85) -/

/-- One repetition of the `nameStripRE` pattern
`^((20)|(25)|(2f)|(3d)|(40))+`: a two-character chunk. -/
def isStripChunk (a b : Char) : Bool :=
  (a == '2' && b == '0') || (a == '2' && b == '5') || (a == '2' && b == 'f') ||
    (a == '3' && b == 'd') || (a == '4' && b == '0')

/-- Drop the longest leading run of strip chunks; this is the effect of
`name = name[i[1]:]` where `i = nameStripRE.FindStringIndex(name)`
(greedy `+` over fixed-width alternatives matches the longest chunk run). -/
def stripChunksList : List Char → List Char
  | a :: b :: rest =>
    if isStripChunk a b then stripChunksList rest else a :: b :: rest
  | l => l

/-- Length of the longest leading run of strip chunks. -/
def chunkRunLen : List Char → Nat
  | a :: b :: rest => if isStripChunk a b then chunkRunLen rest + 2 else 0
  | _ => 0

/-- A list that is exactly a sequence of strip chunks (possibly empty). -/
def ChunkSeq : List Char → Bool
  | [] => true
  | a :: b :: rest => isStripChunk a b && ChunkSeq rest
  | _ => false

/-- The final step of `cleanName` (part_000 lines 533-535): remove a single
leading dot when the name is longer than one character and starts with a
dot. -/
def dropLeadingDot : List Char → List Char
  | '.' :: c :: rest => c :: rest
  | l => l

/-- Embedding of `cleanName` (part_000 lines 527-537): strip the `nameStripRE` match,
lowercase, trim whitespace, and drop a leading dot. -/
def cleanName (name : String) : String :=
  String.mk (dropLeadingDot (trimSpaceList ((stripChunksList name.data).map Char.toLower)))

/-! ### Web-archive crawl loop (source part_000, lines 543-606) -/

/-- The state accumulated by the `crawl` select loop: harvested names
(`results`), the once-only URL filter (`linksFilter`), the GET commands
sent to the fetch queue (`sentGets`), whether `q.Cancel()` has been
requested, and the absolute firing time of the `time.NewTimer(10 *
time.Second)` timer measured in nanoseconds from loop entry. -/
structure CrawlState where
  results : List String
  linksFilter : List String
  sentGets : List String
  cancelRequested : Bool
  timerDeadline : Nat
deriving DecidableEq, Repr

/-- The crawl state on entering the select loop: the seed URL
`base/year/sub` has been sent and the timer is armed at 10 seconds. -/
def crawlInit (base year sub : String) : CrawlState :=
  { results := []
    linksFilter := []
    sentGets := [base ++ "/" ++ year ++ "/" ++ sub]
    cancelRequested := false
    timerDeadline := 10 * nsPerSecond }

/-- One select arm of the crawl loop: a link arrived, a name arrived, the
timer fired, the fetch queue's Done channel closed, or the owning service's
quit channel closed. -/
inductive CrawlEvent
  | link (url : String)
  | nameFound (n : String)
  | timerFire
  | queueDone
  | quit
deriving DecidableEq, Repr

/-- The body of one non-exiting iteration of the crawl select loop
(part_000 lines 585-598). -/
def crawlStep (st : CrawlState) : CrawlEvent → CrawlState
  | .link l =>
    if l ∈ st.linksFilter then st
    else { st with linksFilter := l :: st.linksFilter, sentGets := st.sentGets ++ [l] }
  | .nameFound n => { st with results := uniqueAppend st.results n }
  | .timerFire => { st with cancelRequested := true }
  | .queueDone => st
  | .quit => st

/-- Why the crawl loop broke out. -/
inductive CrawlExit
  | queueDrained
  | quitSignal
deriving DecidableEq, Repr

/-- The crawl select loop over a trace of events: processes events until
`q.Done()` or `service.Quit()` is selected (part_000 lines 599-603); a
`none` exit means the trace ended with the loop still running. -/
def crawlLoop : CrawlState → List CrawlEvent → CrawlState × Option CrawlExit
  | st, [] => (st, none)
  | st, e :: rest =>
    match e with
    | .queueDone => (st, some .queueDrained)
    | .quit => (st, some .quitSignal)
    | .link l => crawlLoop (crawlStep st (.link l)) rest
    | .nameFound n => crawlLoop (crawlStep st (.nameFound n)) rest
    | .timerFire => crawlLoop (crawlStep st .timerFire) rest

/-! ### Concrete inputs used by counterexamples and witnesses -/

/-- A valid non-passive configuration with an empty domain list. -/
def emptyDomainsConfig : AmassConfig :=
  { Domains := []
    Ports := [443]
    Wordlist := ["word"]
    Blacklist := []
    Passive := false
    Active := false
    BruteForcing := false
    Recursive := true
    Alterations := true
    Timing := EnumerationTiming.Normal }

/-- An `Enumeration` whose configuration is valid in every respect the
claim lists except that the domain list is empty. -/
def emptyDomainsEnum : Enumeration :=
  { Config := emptyDomainsConfig
    hasOutput := true
    hasDataOptsWriter := false
    MaxFlowCapacity := 0
    MaxFlowDelay := 0 }

end Amass

/-! ## Helper lemmas -/

namespace Amass

theorem newNameEvent_some_eq (passive : Bool) (st : NameState) (r : AmassRequest) :
    NewNameEvent passive st (some r) =
      if r.Name = "" || r.Domain = "" then (st, none)
      else if TrustedTag (normalizeRequest r).Tag then
        if (normalizeRequest r).Name ∈ st.trustedNameFilter then (st, none)
        else ({ st with
                  trustedNameFilter := (normalizeRequest r).Name :: st.trustedNameFilter,
                  maxFlowAcquired := st.maxFlowAcquired + acquireCount passive },
              some (normalizeRequest r))
      else
        if (normalizeRequest r).Name ∈ st.otherNameFilter then (st, none)
        else ({ st with
                  otherNameFilter := (normalizeRequest r).Name :: st.otherNameFilter,
                  maxFlowAcquired := st.maxFlowAcquired + acquireCount passive },
              some (normalizeRequest r)) := by
  by_cases hv : r.Name = "" || r.Domain = ""
  · simp [NewNameEvent, hv]
  · simp only [NewNameEvent, StringFilter.Duplicate, hv]
    by_cases ht : TrustedTag (normalizeRequest r).Tag
    · by_cases hm : (normalizeRequest r).Name ∈ st.trustedNameFilter <;>
        simp [ht, hm]
    · by_cases hm : (normalizeRequest r).Name ∈ st.otherNameFilter <;>
        simp [ht, hm]

theorem newNameEvent_keyMem_mono (passive : Bool) (st st' : NameState)
    (req : Option AmassRequest) (out : Option AmassRequest) (k : String × Bool)
    (hEv : NewNameEvent passive st req = (st', out)) (hk : keyMem st k) :
    keyMem st' k := by
  cases req with
  | none =>
    simp only [NewNameEvent, Prod.mk.injEq] at hEv
    rw [← hEv.1]; exact hk
  | some r =>
    rw [newNameEvent_some_eq] at hEv
    split_ifs at hEv with h1 h2 h3 h4 <;>
      injection hEv with hst hout <;> subst hst <;>
      · unfold keyMem at hk ⊢
        rcases k with ⟨n, b⟩
        cases b <;> simp_all [List.mem_cons]

theorem newNameEvent_forward_keyMem (passive : Bool) (st st' : NameState)
    (req : Option AmassRequest) (q : AmassRequest)
    (hEv : NewNameEvent passive st req = (st', some q)) :
    keyMem st' (nameKey q) := by
  cases req with
  | none => simp [NewNameEvent] at hEv
  | some r =>
    rw [newNameEvent_some_eq] at hEv
    split_ifs at hEv with h1 h2 h3 h4 <;>
      injection hEv with hst hout <;> subst hst <;>
      (first
        | exact Option.noConfusion hout
        | (injection hout with hq
           subst hq
           simp_all [keyMem, nameKey]))

theorem newNameEvent_forward_not_keyMem (passive : Bool) (st st' : NameState)
    (req : Option AmassRequest) (q : AmassRequest)
    (hEv : NewNameEvent passive st req = (st', some q)) :
    ¬ keyMem st (nameKey q) := by
  cases req with
  | none => simp [NewNameEvent] at hEv
  | some r =>
    rw [newNameEvent_some_eq] at hEv
    split_ifs at hEv with h1 h2 h3 h4 <;>
      injection hEv with hst hout <;>
      (first
        | exact Option.noConfusion hout
        | (injection hout with hq
           subst hq
           simp_all [keyMem, nameKey]))

theorem runNames_cons (passive : Bool) (st : NameState) (r : Option AmassRequest)
    (rest : List (Option AmassRequest)) :
    runNames passive st (r :: rest) =
      ((runNames passive (NewNameEvent passive st r).1 rest).1,
        (NewNameEvent passive st r).2.toList ++
          (runNames passive (NewNameEvent passive st r).1 rest).2) := by
  simp [runNames]

theorem runNames_not_forwarded_of_keyMem (passive : Bool)
    (reqs : List (Option AmassRequest)) (st : NameState) (k : String × Bool)
    (hk : keyMem st k) :
    ∀ q ∈ (runNames passive st reqs).2, nameKey q ≠ k := by
  induction reqs generalizing st with
  | nil => simp [runNames]
  | cons r rest ih =>
    intro q hq
    rw [runNames_cons] at hq
    rcases hEv : NewNameEvent passive st r with ⟨st', out⟩
    rw [hEv] at hq
    simp only [List.mem_append] at hq
    rcases hq with hq | hq
    · cases out with
      | none => simp at hq
      | some q0 =>
        simp only [Option.toList_some, List.mem_singleton] at hq
        subst hq
        intro hkey
        exact newNameEvent_forward_not_keyMem passive st st' r q hEv (hkey ▸ hk)
    · exact ih st' (newNameEvent_keyMem_mono passive st st' r out k hEv hk) q hq

theorem runNames_nodup (passive : Bool) (reqs : List (Option AmassRequest))
    (st : NameState) :
    (((runNames passive st reqs).2).map nameKey).Nodup := by
  induction reqs generalizing st with
  | nil => simp [runNames]
  | cons r rest ih =>
    rw [runNames_cons]
    rcases hEv : NewNameEvent passive st r with ⟨st', out⟩
    cases out with
    | none => simpa using ih st'
    | some q =>
      simp only [Option.toList_some, List.singleton_append, List.map_cons,
        List.nodup_cons]
      refine ⟨?_, ih st'⟩
      intro hmem
      rcases List.mem_map.mp hmem with ⟨q', hq', hkey⟩
      exact runNames_not_forwarded_of_keyMem passive rest st' (nameKey q)
        (newNameEvent_forward_keyMem passive st st' r q hEv) q' hq' hkey

theorem toNat_ofNat_add32 (n : Nat) (h1 : 65 ≤ n) (h2 : n ≤ 90) :
    (Char.ofNat (n + 32)).toNat = n + 32 := by
  have hv : (n + 32).isValidChar := Or.inl (by omega)
  rw [Char.ofNat, dif_pos hv]
  simp [Char.ofNatAux, Char.toNat, UInt32.toNat, BitVec.toNat_ofNatLt]

theorem isGoSpace_toLower (c : Char) : isGoSpace (Char.toLower c) = isGoSpace c := by
  unfold Char.toLower
  simp only []
  split_ifs with h
  · obtain ⟨h1, h2⟩ := h
    rw [Bool.eq_iff_iff]
    simp [isGoSpace, toNat_ofNat_add32 c.toNat h1 h2]
    omega
  · rfl

theorem trimSpaceList_map_toLower (l : List Char) :
    trimSpaceList (l.map Char.toLower) = (trimSpaceList l).map Char.toLower := by
  have hcomp : (isGoSpace ∘ Char.toLower) = isGoSpace := funext isGoSpace_toLower
  unfold trimSpaceList
  rw [List.dropWhile_map, hcomp, ← List.map_reverse, List.dropWhile_map, hcomp,
    ← List.map_reverse]

theorem stripChunksList_eq_drop : ∀ l : List Char,
    stripChunksList l = List.drop (chunkRunLen l) l
  | [] => rfl
  | [_] => rfl
  | a :: b :: rest => by
    simp only [stripChunksList, chunkRunLen]
    by_cases h : isStripChunk a b
    · simp only [h, if_true]
      rw [stripChunksList_eq_drop rest]
      rfl
    · simp [h]

theorem chunkSeq_take_chunkRunLen : ∀ l : List Char,
    ChunkSeq (List.take (chunkRunLen l) l) = true
  | [] => rfl
  | [_] => rfl
  | a :: b :: rest => by
    simp only [chunkRunLen]
    by_cases h : isStripChunk a b
    · simp only [h, if_true]
      have : List.take (chunkRunLen rest + 2) (a :: b :: rest) =
          a :: b :: List.take (chunkRunLen rest) rest := rfl
      rw [this]
      simp [ChunkSeq, h, chunkSeq_take_chunkRunLen rest]
    · simp [h, ChunkSeq]

theorem chunkRunLen_maximal : ∀ (l : List Char) (m : Nat),
    m ≤ l.length → ChunkSeq (List.take m l) = true → m ≤ chunkRunLen l
  | _, 0, _, _ => Nat.zero_le _
  | [], m, hlen, _ => by
    simp at hlen
    simp [hlen, chunkRunLen]
  | [_], 1, _, hcs => by simp [ChunkSeq] at hcs
  | _ :: _ :: _, 1, _, hcs => by simp [ChunkSeq] at hcs
  | a :: b :: rest, m + 2, hlen, hcs => by
    have htake : List.take (m + 2) (a :: b :: rest) =
        a :: b :: List.take m rest := rfl
    rw [htake] at hcs
    simp only [ChunkSeq, Bool.and_eq_true] at hcs
    have hih := chunkRunLen_maximal rest m (by simpa using hlen) hcs.2
    simp only [chunkRunLen, hcs.1, if_true]
    omega

theorem dnsSendRequest_release (oracle : DNSOracle) (req : AmassRequest) :
    (dnsSendRequest oracle req).2 = 1 := by
  unfold dnsSendRequest
  by_cases h : oracle.Resolves req
  · simp only [h, if_true]
    cases ResolvedNameEvent oracle req <;> rfl
  · simp [h]

theorem checkConfig_preserves_passive (e : Enumeration)
    (fetched : Except String String) :
    (CheckConfig e fetched).2.Config.Passive = e.Config.Passive := by
  unfold CheckConfig
  split_ifs <;> rfl

end Amass

/-! ## Claim theorems -/

/-- C1: every candidate request reaching `ResolveNameEvent` in a non-passive
run releases exactly one FlowLimiter (MaxFlow) permit along its terminal
disposition — successful emit, dynamic-zone wildcard drop, static-fingerprint
drop after resolution, blacklist drop, or resolution failure — never zero
and never two. -/
theorem flow_permit_released_once (cfg : Amass.AmassConfig)
    (oracle : Amass.DNSOracle) (req : Option Amass.AmassRequest)
    (hp : cfg.Passive = false) :
    (Amass.resolutionPipeline cfg oracle req).2 = 1 := by
  cases req with
  | none =>
    simp [Amass.resolutionPipeline, Amass.ResolveNameEvent, Amass.releaseCount, hp]
  | some r =>
    simp only [Amass.resolutionPipeline, Amass.ResolveNameEvent]
    split_ifs <;>
      simp [Amass.releaseCount, hp, Amass.dnsSendRequest_release]

/-- Witness for C1 at concrete inputs: one permit is released on an emitted
request and one on a blacklisted request, in a non-passive run. -/
theorem flow_permit_released_once_witness :
    (Amass.resolutionPipeline
        ⟨["example.com"], [443], ["w"], ["bad.example.com"], false, false, false,
          true, true, .Normal⟩
        ⟨fun _ => Amass.WildcardType.None, fun _ => false, fun _ => true⟩
        (some ⟨"a.example.com", "example.com", "", "scrape", "s"⟩)).2 = 1
  ∧ (Amass.resolutionPipeline
        ⟨["example.com"], [443], ["w"], ["bad.example.com"], false, false, false,
          true, true, .Normal⟩
        ⟨fun _ => Amass.WildcardType.None, fun _ => false, fun _ => true⟩
        (some ⟨"bad.example.com", "example.com", "", "scrape", "s"⟩)).2 = 1 :=
  ⟨flow_permit_released_once _ _ _ rfl, flow_permit_released_once _ _ _ rfl⟩

/-- C2: the dynamic-wildcard check in `ResolveNameEvent` and the
static-fingerprint check in `ResolvedNameEvent` never drop a request with a
trusted tag; an untrusted request is dropped by `ResolveNameEvent` whenever
its zone is classified dynamic-wildcard, and by `ResolvedNameEvent`
whenever its answers match a static wildcard fingerprint. -/
theorem wildcard_trust_filtering (cfg : Amass.AmassConfig)
    (oracle : Amass.DNSOracle) (r : Amass.AmassRequest) :
    (Amass.TrustedTag r.Tag = true →
       (Amass.ResolveNameEvent cfg oracle (some r)).1 ≠
           Amass.ResolveOutcome.dropped Amass.Disposition.dynamicWildcardDrop
       ∧ Amass.ResolvedNameEvent oracle r = some r)
  ∧ (Amass.TrustedTag r.Tag = false →
       (oracle.GetWildcardType r = Amass.WildcardType.Dynamic →
          ∀ q, (Amass.ResolveNameEvent cfg oracle (some r)).1 ≠
                 Amass.ResolveOutcome.sentToDNS q)
       ∧ (oracle.MatchesWildcard r = true →
          Amass.ResolvedNameEvent oracle r = none)) := by
  constructor
  · intro ht
    constructor
    · simp only [Amass.ResolveNameEvent]
      split_ifs with h1 h2 h3 <;> simp_all
    · simp [Amass.ResolvedNameEvent, ht]
  · intro ht
    constructor
    · intro hdyn q
      simp only [Amass.ResolveNameEvent]
      split_ifs with h1 h2 h3 <;> simp_all
    · intro hmatch
      simp [Amass.ResolvedNameEvent, ht, hmatch]

/-- Witness for C2 at concrete inputs: a trusted (`cert`) request in a
dynamic-wildcard, fingerprint-matching zone is neither dropped by the
dynamic check nor by the static check, while the same request with the
untrusted `scrape` tag is suppressed by both. -/
theorem wildcard_trust_filtering_witness :
    (Amass.ResolveNameEvent Amass.emptyDomainsConfig
        ⟨fun _ => Amass.WildcardType.Dynamic, fun _ => true, fun _ => true⟩
        (some ⟨"x.wild.test", "wild.test", "", "cert", "s"⟩)).1 ≠
        Amass.ResolveOutcome.dropped Amass.Disposition.dynamicWildcardDrop
  ∧ Amass.ResolvedNameEvent
        ⟨fun _ => Amass.WildcardType.Dynamic, fun _ => true, fun _ => true⟩
        ⟨"x.wild.test", "wild.test", "", "cert", "s"⟩ =
      some ⟨"x.wild.test", "wild.test", "", "cert", "s"⟩
  ∧ (∀ q, (Amass.ResolveNameEvent Amass.emptyDomainsConfig
        ⟨fun _ => Amass.WildcardType.Dynamic, fun _ => true, fun _ => true⟩
        (some ⟨"x.wild.test", "wild.test", "", "scrape", "s"⟩)).1 ≠
        Amass.ResolveOutcome.sentToDNS q)
  ∧ Amass.ResolvedNameEvent
        ⟨fun _ => Amass.WildcardType.Dynamic, fun _ => true, fun _ => true⟩
        ⟨"x.wild.test", "wild.test", "", "scrape", "s"⟩ = none := by
  refine ⟨?_, ?_, ?_, ?_⟩
  · exact ((wildcard_trust_filtering Amass.emptyDomainsConfig
      ⟨fun _ => Amass.WildcardType.Dynamic, fun _ => true, fun _ => true⟩
      ⟨"x.wild.test", "wild.test", "", "cert", "s"⟩).1 (by decide)).1
  · exact ((wildcard_trust_filtering Amass.emptyDomainsConfig
      ⟨fun _ => Amass.WildcardType.Dynamic, fun _ => true, fun _ => true⟩
      ⟨"x.wild.test", "wild.test", "", "cert", "s"⟩).1 (by decide)).2
  · exact ((wildcard_trust_filtering Amass.emptyDomainsConfig
      ⟨fun _ => Amass.WildcardType.Dynamic, fun _ => true, fun _ => true⟩
      ⟨"x.wild.test", "wild.test", "", "scrape", "s"⟩).2 (by decide)).1 rfl
  · exact ((wildcard_trust_filtering Amass.emptyDomainsConfig
      ⟨fun _ => Amass.WildcardType.Dynamic, fun _ => true, fun _ => true⟩
      ⟨"x.wild.test", "wild.test", "", "scrape", "s"⟩).2 (by decide)).2 rfl

/-- C6: `TrustedTag` returns true for exactly the four tags `dns`, `cert`,
`archive` and `axfr`, and false for every other tag string. -/
theorem trustedTag_iff_four_tags (tag : String) :
    Amass.TrustedTag tag = true ↔
      tag = "dns" ∨ tag = "cert" ∨ tag = "archive" ∨ tag = "axfr" := by
  unfold Amass.TrustedTag Amass.DNS Amass.CERT Amass.ARCHIVE Amass.AXFR
  constructor
  · intro h
    by_cases h1 : tag = "dns"
    · exact Or.inl h1
    by_cases h2 : tag = "cert"
    · exact Or.inr (Or.inl h2)
    by_cases h3 : tag = "archive"
    · exact Or.inr (Or.inr (Or.inl h3))
    by_cases h4 : tag = "axfr"
    · exact Or.inr (Or.inr (Or.inr h4))
    simp [h1, h2, h3, h4] at h
  · rintro (h | h | h | h) <;> simp [h]

/-- C5: the mapping from timing band to (max flow, release interval) equals
the fixed table paranoid → (10, 100 ms), sneaky → (30, 33 ms),
polite → (100, 10 ms), normal → (333, 3 ms), aggressive → (1000, 1 ms),
insane → (10000, 100 µs), with intervals in nanoseconds. -/
theorem timing_table :
    (∀ t : Amass.EnumerationTiming,
      (t.ToMaxFlow, t.ToReleaseDelay) =
        match t with
        | .Paranoid => (10, 100000000)
        | .Sneaky => (30, 33000000)
        | .Polite => (100, 10000000)
        | .Normal => (333, 3000000)
        | .Aggressive => (1000, 1000000)
        | .Insane => (10000, 100000)) := by
  intro t
  cases t <;> rfl

/-- C10: `NewNameEvent` called with a nil request, an empty name, or an
empty domain returns immediately without touching either dedup filter,
without acquiring a FlowLimiter permit, and without forwarding anything;
likewise `NewAddressEvent` with a nil request or empty address forwards
nothing. -/
theorem invalid_requests_dropped (passive : Bool) (st : Amass.NameState)
    (r : Amass.AmassRequest) :
    Amass.NewNameEvent passive st none = (st, none)
  ∧ (r.Name = "" → Amass.NewNameEvent passive st (some r) = (st, none))
  ∧ (r.Domain = "" → Amass.NewNameEvent passive st (some r) = (st, none))
  ∧ Amass.NewAddressEvent none = none
  ∧ (r.Address = "" → Amass.NewAddressEvent (some r) = none) := by
  refine ⟨rfl, ?_, ?_, rfl, ?_⟩
  · intro h; simp [Amass.NewNameEvent, h]
  · intro h; simp [Amass.NewNameEvent, h]
  · intro h; simp [Amass.NewAddressEvent, h]

/-- Counterexample for C3: an enumeration whose configuration is valid in
every other listed respect but whose domain list is empty passes
`CheckConfig` with no error, refuting "returns an error ... exactly when
... the domain list is empty". -/
theorem checkConfig_empty_domains_counterexample :
    (Amass.CheckConfig Amass.emptyDomainsEnum (Except.ok "")).1 = none
  ∧ Amass.emptyDomainsEnum.Config.Domains = []
  ∧ Amass.emptyDomainsEnum.hasOutput = true
  ∧ Amass.emptyDomainsEnum.Config.Passive = false := by
  refine ⟨?_, rfl, rfl, rfl⟩
  decide

/-- C3 (amended): `CheckConfig` returns an error exactly when the output
channel is missing, when Passive is combined with BruteForcing, with
Active, or with a data-operations writer, or when the wordlist is empty and
fetching the default wordlist fails; the domain list is not checked.  When
it passes, Ports is defaulted to {443} if empty and the default wordlist is
fetched if none was supplied. -/
theorem checkConfig_spec (e : Amass.Enumeration) (fetched : Except String String) :
    ((Amass.CheckConfig e fetched).1 ≠ none ↔
       e.hasOutput = false
       ∨ (e.Config.Passive && e.Config.BruteForcing) = true
       ∨ (e.Config.Passive && e.Config.Active) = true
       ∨ (e.Config.Passive && e.hasDataOptsWriter) = true
       ∨ (e.Config.Wordlist = [] ∧ ∃ msg, fetched = Except.error msg))
  ∧ ((Amass.CheckConfig e fetched).1 = none →
       (Amass.CheckConfig e fetched).2.Config.Ports =
           (if e.Config.Ports = [] then [443] else e.Config.Ports)
       ∧ (Amass.CheckConfig e fetched).2.Config.Wordlist =
           (if e.Config.Wordlist = [] then (Amass.getDefaultWordlist fetched).1
            else e.Config.Wordlist)) := by
  rcases fetched with msg | page <;>
    (unfold Amass.CheckConfig
     by_cases h1 : e.hasOutput = false <;>
     by_cases h2 : (e.Config.Passive && e.Config.BruteForcing) = true <;>
     by_cases h3 : (e.Config.Passive && e.Config.Active) = true <;>
     by_cases h4 : (e.Config.Passive && e.hasDataOptsWriter) = true <;>
     by_cases hports : e.Config.Ports = [] <;>
     by_cases hw : e.Config.Wordlist = [] <;>
       simp [h1, h2, h3, h4, hports, hw, Amass.getDefaultWordlist])

/-- Witness for C3 (amended) at a concrete input: a passive configuration
combined with brute forcing is refused, and a valid configuration with
empty ports gets the {443} default. -/
theorem checkConfig_spec_witness :
    (Amass.CheckConfig
        { Amass.emptyDomainsEnum with
            Config := { Amass.emptyDomainsConfig with
                          Passive := true, BruteForcing := true } }
        (Except.ok "")).1 ≠ none
  ∧ (Amass.CheckConfig
        { Amass.emptyDomainsEnum with
            Config := { Amass.emptyDomainsConfig with Ports := [] } }
        (Except.ok "")).2.Config.Ports = [443] := by
  constructor
  · exact (checkConfig_spec _ _).1.mpr (Or.inr (Or.inl (by decide)))
  · have h := ((checkConfig_spec
      { Amass.emptyDomainsEnum with
          Config := { Amass.emptyDomainsConfig with Ports := [] } }
      (Except.ok "")).2 (by decide)).1
    exact h.trans (by decide)

/-- C4: a new candidate name entering via `NewNameEvent` is normalized
(lowercased, leading wildcard label removed), checked against the dedup
filter selected by its tag trust (independent filters for trusted and
untrusted), dropped when already present, acquires one FlowLimiter permit
only when the run is not passive and only when not a duplicate, and is then
forwarded; consequently a run forwards any given name at most once per
trust partition. -/
theorem newNameEvent_dedup_pipeline (passive : Bool) (st : Amass.NameState)
    (r : Amass.AmassRequest) (hname : r.Name ≠ "") (hdom : r.Domain ≠ "") :
    (Amass.TrustedTag r.Tag = true →
       ((Amass.normalizeRequest r).Name ∈ st.trustedNameFilter →
          Amass.NewNameEvent passive st (some r) = (st, none))
       ∧ ((Amass.normalizeRequest r).Name ∉ st.trustedNameFilter →
          Amass.NewNameEvent passive st (some r) =
            ({ st with
                 trustedNameFilter :=
                   (Amass.normalizeRequest r).Name :: st.trustedNameFilter,
                 maxFlowAcquired :=
                   st.maxFlowAcquired + Amass.acquireCount passive },
             some (Amass.normalizeRequest r))))
  ∧ (Amass.TrustedTag r.Tag = false →
       ((Amass.normalizeRequest r).Name ∈ st.otherNameFilter →
          Amass.NewNameEvent passive st (some r) = (st, none))
       ∧ ((Amass.normalizeRequest r).Name ∉ st.otherNameFilter →
          Amass.NewNameEvent passive st (some r) =
            ({ st with
                 otherNameFilter :=
                   (Amass.normalizeRequest r).Name :: st.otherNameFilter,
                 maxFlowAcquired :=
                   st.maxFlowAcquired + Amass.acquireCount passive },
             some (Amass.normalizeRequest r))))
  ∧ (∀ (reqs : List (Option Amass.AmassRequest)) (st0 : Amass.NameState),
       (((Amass.runNames passive st0 reqs).2).map Amass.nameKey).Nodup) := by
  have htag : Amass.TrustedTag (Amass.normalizeRequest r).Tag = Amass.TrustedTag r.Tag := rfl
  refine ⟨?_, ?_, fun reqs st0 => Amass.runNames_nodup passive reqs st0⟩
  · intro ht
    constructor
    · intro hm
      rw [Amass.newNameEvent_some_eq]
      simp [hname, hdom, htag, ht, hm]
    · intro hm
      rw [Amass.newNameEvent_some_eq]
      simp [hname, hdom, htag, ht, hm]
  · intro ht
    constructor
    · intro hm
      rw [Amass.newNameEvent_some_eq]
      simp [hname, hdom, htag, ht, hm]
    · intro hm
      rw [Amass.newNameEvent_some_eq]
      simp [hname, hdom, htag, ht, hm]

/-- Witness for C4 at a concrete input: the untrusted request
`*.Sub.Example.COM` (tag `scrape`) is normalized to `sub.example.com`,
inserted into the untrusted filter, acquires one permit in a non-passive
run, and is forwarded. -/
theorem newNameEvent_dedup_pipeline_witness :
    Amass.NewNameEvent false ⟨[], [], 0⟩
        (some ⟨"*.Sub.Example.COM", "Example.COM", "", "scrape", "src"⟩) =
      (⟨[], ["sub.example.com"], 1⟩,
       some ⟨"sub.example.com", "example.com", "", "scrape", "src"⟩) := by
  have h := ((newNameEvent_dedup_pipeline false ⟨[], [], 0⟩
      ⟨"*.Sub.Example.COM", "Example.COM", "", "scrape", "src"⟩
      (by decide) (by decide)).2.1 (by decide)).2 (by simp)
  exact h.trans (by decide)

/-- C8: in passive mode `Start` runs exactly NameService, AddressService
and the data sources (no DNSService, DataManagerService, ActiveCertService,
AlterationService or BruteForceService); in non-passive mode all services
are selected; services are started in order and the first failing service's
error aborts startup and is returned. -/
theorem start_spec (ds : List Nat) (start : Amass.ServiceId → Option String) :
    Amass.selectServices true ds =
        [Amass.ServiceId.nameService, Amass.ServiceId.addrService] ++
          ds.map Amass.ServiceId.dataSource
  ∧ Amass.selectServices false ds =
        [Amass.ServiceId.dnsService, Amass.ServiceId.dataService,
         Amass.ServiceId.activeCert, Amass.ServiceId.nameService,
         Amass.ServiceId.addrService, Amass.ServiceId.altService,
         Amass.ServiceId.bruteService] ++ ds.map Amass.ServiceId.dataSource
  ∧ (∀ l, (Amass.startServices start l = none ↔ ∀ s ∈ l, start s = none))
  ∧ (∀ l1 s l2, (∀ u ∈ l1, start u = none) → start s ≠ none →
        Amass.startServices start (l1 ++ s :: l2) = start s)
  ∧ (∀ (e : Amass.Enumeration) (fetched : Except String String),
        Amass.Start e fetched ds start =
          match (Amass.CheckConfig e fetched).1 with
          | some err => some err
          | none =>
            Amass.startServices start (Amass.selectServices e.Config.Passive ds)) := by
  refine ⟨by simp [Amass.selectServices], by simp [Amass.selectServices], ?_, ?_, ?_⟩
  · intro l
    induction l with
    | nil => simp [Amass.startServices]
    | cons s rest ih =>
      cases hs : start s with
      | some err => simp [Amass.startServices, hs]
      | none => simp [Amass.startServices, hs, ih]
  · intro l1 s l2 hok hfail
    induction l1 with
    | nil =>
      cases hs : start s with
      | some err => simp [Amass.startServices, hs]
      | none => exact absurd hs hfail
    | cons u rest ih =>
      have hu : start u = none := hok u (by simp)
      simp only [List.cons_append, Amass.startServices, hu]
      exact ih (fun v hv => hok v (by simp [hv]))
  · intro e fetched
    have hp := Amass.checkConfig_preserves_passive e fetched
    rcases hC : Amass.CheckConfig e fetched with ⟨err, e'⟩
    rw [hC] at hp
    unfold Amass.Start
    rw [hC]
    cases err with
    | some msg => rfl
    | none =>
      simp only at hp
      simp [hp]

/-- Witness for C8 at concrete inputs: passive service selection over two
data sources, and a start function whose failure on the last data source is
returned by the start loop. -/
theorem start_spec_witness :
    Amass.selectServices true [0, 1] =
        [Amass.ServiceId.nameService, Amass.ServiceId.addrService,
         Amass.ServiceId.dataSource 0, Amass.ServiceId.dataSource 1]
  ∧ Amass.startServices
        (fun s => if s = Amass.ServiceId.dataSource 1 then some "boom" else none)
        ([Amass.ServiceId.nameService, Amass.ServiceId.addrService,
          Amass.ServiceId.dataSource 0] ++ Amass.ServiceId.dataSource 1 :: []) =
      some "boom" := by
  constructor
  · exact (start_spec [0, 1]
      (fun s => if s = Amass.ServiceId.dataSource 1 then some "boom" else none)).1.trans
      (by decide)
  · exact ((start_spec [0, 1]
      (fun s => if s = Amass.ServiceId.dataSource 1 then some "boom" else none)).2.2.2.1
      [Amass.ServiceId.nameService, Amass.ServiceId.addrService,
        Amass.ServiceId.dataSource 0]
      (Amass.ServiceId.dataSource 1) [] (by decide) (by decide)).trans (by decide)

/-- C7: for every input string, `cleanName` first strips the longest
leading prefix matching `^((20)|(25)|(2f)|(3d)|(40))+` (the stripped run is
a chunk sequence and no longer prefix is one), then trims surrounding
whitespace and lowercases the result, and finally removes one leading dot
if the string has length greater than one and begins with a dot. -/
theorem cleanName_spec (s : String) :
    Amass.cleanName s =
      String.mk (Amass.dropLeadingDot
        ((Amass.trimSpaceList
            (List.drop (Amass.chunkRunLen s.data) s.data)).map Char.toLower))
  ∧ Amass.ChunkSeq (List.take (Amass.chunkRunLen s.data) s.data) = true
  ∧ (∀ m, m ≤ s.data.length → Amass.ChunkSeq (List.take m s.data) = true →
        m ≤ Amass.chunkRunLen s.data) := by
  refine ⟨?_, Amass.chunkSeq_take_chunkRunLen s.data,
    fun m hm hcs => Amass.chunkRunLen_maximal s.data m hm hcs⟩
  unfold Amass.cleanName
  rw [Amass.stripChunksList_eq_drop, Amass.trimSpaceList_map_toLower]

/-- Witness for C7 at a concrete input: `cleanName` maps `"2f20.Example "`
to `"example"` (chunks `2f` and `20` stripped, lowercased, trimmed, one
leading dot removed), and the two-character prefix `2f` is part of the
stripped run. -/
theorem cleanName_spec_witness :
    Amass.cleanName "2f20.Example " = "example"
  ∧ 2 ≤ Amass.chunkRunLen "2f20.Example ".data := by
  constructor
  · exact (cleanName_spec "2f20.Example ").1.trans (by decide)
  · exact (cleanName_spec "2f20.Example ").2.2 2 (by decide) (by decide)

/-- Counterexample for C9: the crawl timer is not restarted when the
crawler does work.  After the loop (entered at time 0 with the timer armed
at 10 s) processes a fresh link — say at 9 s — the deadline is still the
original 10 s, not 9 s + 10 s as an idle timer would give, so an actively
crawling run is cut off at 10 seconds. -/
theorem crawl_timer_counterexample :
    (Amass.crawlStep (Amass.crawlInit "http://archive" "2018" "example.com")
        (Amass.CrawlEvent.link "u")).timerDeadline = 10 * Amass.nsPerSecond
  ∧ 10 * Amass.nsPerSecond ≠ 9 * Amass.nsPerSecond + 10 * Amass.nsPerSecond := by
  exact ⟨by decide, by decide⟩

/-- C9 (amended): the crawl select loop exits exactly when the fetch
queue's Done channel closes or the owning service's quit signal is
received; the 10-second timer firing does not exit the loop but requests
queue cancellation (which drains the queue); and the timer is absolute —
armed once at loop entry at 10 seconds and never restarted by link or name
work, so an actively crawling run is also cancelled at 10 seconds. -/
theorem crawl_loop_spec (st : Amass.CrawlState) (events : List Amass.CrawlEvent)
    (base year sub : String) :
    ((Amass.crawlLoop st events).2 ≠ none ↔
       Amass.CrawlEvent.queueDone ∈ events ∨ Amass.CrawlEvent.quit ∈ events)
  ∧ (∀ e, (Amass.crawlStep st e).timerDeadline = st.timerDeadline)
  ∧ (Amass.crawlStep st Amass.CrawlEvent.timerFire).cancelRequested = true
  ∧ (Amass.crawlInit base year sub).timerDeadline = 10 * Amass.nsPerSecond := by
  refine ⟨?_, ?_, rfl, rfl⟩
  · induction events generalizing st with
    | nil => simp [Amass.crawlLoop]
    | cons e rest ih =>
      cases e with
      | queueDone => simp [Amass.crawlLoop]
      | quit => simp [Amass.crawlLoop]
      | link l => simpa [Amass.crawlLoop] using ih (Amass.crawlStep st (.link l))
      | nameFound n => simpa [Amass.crawlLoop] using ih (Amass.crawlStep st (.nameFound n))
      | timerFire => simpa [Amass.crawlLoop] using ih (Amass.crawlStep st .timerFire)
  · intro e
    cases e <;>
      simp [Amass.crawlStep, apply_ite Amass.CrawlState.timerDeadline]

/-- Witness for C9 (amended) at a concrete input: a trace that does link
work, sees the timer fire, and then observes the queue drain makes the loop
exit. -/
theorem crawl_loop_spec_witness :
    (Amass.crawlLoop (Amass.crawlInit "http://archive" "2018" "sub.example")
        [Amass.CrawlEvent.link "u", Amass.CrawlEvent.timerFire,
         Amass.CrawlEvent.queueDone]).2 ≠ none :=
  (crawl_loop_spec (Amass.crawlInit "http://archive" "2018" "sub.example")
      [Amass.CrawlEvent.link "u", Amass.CrawlEvent.timerFire,
       Amass.CrawlEvent.queueDone] "http://archive" "2018" "sub.example").1.mpr
    (Or.inl (by decide))

/-- Witness for C10 at a concrete input: a request with an empty name and
an empty address is dropped by both events. -/
theorem invalid_requests_dropped_witness :
    Amass.NewNameEvent false ⟨[], [], 0⟩
        (some ⟨"", "example.com", "", "scrape", "src"⟩) = (⟨[], [], 0⟩, none)
  ∧ Amass.NewAddressEvent (some ⟨"sub.example.com", "example.com", "", "dns", "src"⟩) =
      none :=
  ⟨(invalid_requests_dropped false ⟨[], [], 0⟩
      ⟨"", "example.com", "", "scrape", "src"⟩).2.1 rfl,
   (invalid_requests_dropped false ⟨[], [], 0⟩
      ⟨"sub.example.com", "example.com", "", "dns", "src"⟩).2.2.2.2 rfl⟩
